import Mathlib

/-!
Verification of the CSV Field Mapper core (file `9_csv_field_mapper.py`):
a shallow embedding of the field-mapping and transformation engine —
the value extractors, the mapping table operations, the calculation
engine and the export conversion — together with theorems settling the
specification's claims about them.

Python strings are modelled as Lean `String` (operating on `toList`,
i.e. code points, matching Python indexing/slicing/len), Python dicts
as insertion-ordered association lists with in-place overwrite
(`dinsert`) and first-match lookup, Python `None`/exceptions as
`Option`, and JSON documents as an inductive `JValue` with a
recursive-descent model of `json.loads`.
-/

namespace CSVFieldMapper

/-! ## Python primitives -/

/-- ASCII model of `str.lower()`. -/
def pyLower (s : String) : String :=
  String.mk (s.toList.map Char.toLower)

/-- ASCII model of `str.upper()` applied to a single character. -/
def pyUpperChar (c : Char) : Char :=
  Char.toUpper c

/-- Whitespace stripped by Python `int(...)`. -/
def isPySpace (c : Char) : Bool :=
  c = ' ' ∨ c = '\t' ∨ c = '\n' ∨ c = '\r' ∨ c = '\x0b' ∨ c = '\x0c'

/-- Digit run with single underscores allowed between digits, as accepted by
`int(...)`; the head character must already have been checked to be a digit. -/
def pyDigitsAux : List Char → Nat → Option Nat
  | [], acc => some acc
  | '_' :: c :: rest, acc =>
    if c.isDigit then pyDigitsAux (c :: rest) acc else none
  | ['_'], _ => none
  | c :: rest, acc =>
    if c.isDigit then pyDigitsAux rest (acc * 10 + (c.toNat - 48)) else none

/-- Parse a nonempty digit run (underscore separators allowed). -/
def pyDigits : List Char → Option Nat
  | [] => none
  | c :: rest =>
    if c.isDigit then pyDigitsAux rest (c.toNat - 48) else none

/-- Model of Python `int(s)`: surrounding whitespace stripped, optional sign,
then decimal digits; `none` models the `ValueError` raised otherwise. -/
def pyInt? (s : String) : Option Int :=
  let cs := (((s.toList.dropWhile isPySpace).reverse.dropWhile isPySpace).reverse)
  match cs with
  | '+' :: rest => (pyDigits rest).map Int.ofNat
  | '-' :: rest => (pyDigits rest).map (fun n => -(Int.ofNat n))
  | rest => (pyDigits rest).map Int.ofNat

/-- Python-dict upsert on an association list: overwrite in place if the key
is present (keeping its original position), else append at the end. -/
def dinsert {α : Type} : List (String × α) → String → α → List (String × α)
  | [], k, v => [(k, v)]
  | kv :: rest, k, v =>
    if kv.1 = k then (k, v) :: rest else kv :: dinsert rest k v

/-- Python-dict deletion on an association list (`del d[k]` / pop). -/
def derase {α : Type} : List (String × α) → String → List (String × α)
  | [], _ => []
  | kv :: rest, k =>
    if kv.1 = k then rest else kv :: derase rest k

/-! ## JSON documents and `json.loads` -/

/-- A decoded JSON document, as produced by `json.loads`: objects keep their
(insertion-ordered, duplicate-free) key-value pairs; non-integral numeric
literals are kept as written. -/
inductive JValue where
  | null
  | bool (b : Bool)
  | num (n : Int)
  | flt (raw : String)
  | str (s : String)
  | arr (xs : List JValue)
  | obj (kvs : List (String × JValue))
deriving Repr

/-- First-match lookup in a (duplicate-free) decoded JSON object. -/
def dictLookup : List (String × JValue) → String → Option JValue
  | [], _ => none
  | kv :: rest, k => if kv.1 = k then some kv.2 else dictLookup rest k

/-- JSON whitespace. -/
def isJsonWs (c : Char) : Bool :=
  c = ' ' ∨ c = '\t' ∨ c = '\n' ∨ c = '\r'

def skipWs (cs : List Char) : List Char :=
  cs.dropWhile isJsonWs

def hexVal (c : Char) : Option Nat :=
  if c.isDigit then some (c.toNat - 48)
  else if 'a' ≤ c ∧ c ≤ 'f' then some (c.toNat - 87)
  else if 'A' ≤ c ∧ c ≤ 'F' then some (c.toNat - 55)
  else none

/-- Body of a JSON string literal, after the opening quote: returns the
decoded characters and the input remaining after the closing quote. -/
def parseStringBody : Nat → List Char → Option (List Char × List Char)
  | 0, _ => none
  | _, [] => none
  | fuel + 1, c :: rest =>
    if c = '\"' then some ([], rest)
    else if c = '\\' then
      match rest with
      | [] => none
      | e :: rest2 =>
        let esc : Option (Char × List Char) :=
          if e = '\"' then some ('\"', rest2)
          else if e = '\\' then some ('\\', rest2)
          else if e = '/' then some ('/', rest2)
          else if e = 'b' then some ('\x08', rest2)
          else if e = 'f' then some ('\x0c', rest2)
          else if e = 'n' then some ('\n', rest2)
          else if e = 'r' then some ('\r', rest2)
          else if e = 't' then some ('\t', rest2)
          else if e = 'u' then
            match rest2 with
            | h1 :: h2 :: h3 :: h4 :: rest3 =>
              match hexVal h1, hexVal h2, hexVal h3, hexVal h4 with
              | some a, some b, some c1, some d =>
                some (Char.ofNat (((a * 16 + b) * 16 + c1) * 16 + d), rest3)
              | _, _, _, _ => none
            | _ => none
          else none
        match esc with
        | none => none
        | some (ch, r) =>
          match parseStringBody fuel r with
          | none => none
          | some (s, r2) => some (ch :: s, r2)
    else if c.toNat < 32 then none
    else
      match parseStringBody fuel rest with
      | none => none
      | some (s, r2) => some (c :: s, r2)

def spanDigits (cs : List Char) : List Char × List Char :=
  (cs.takeWhile Char.isDigit, cs.dropWhile Char.isDigit)

/-- Optional fraction part `.ddd` of a JSON number (consumed text, rest). -/
def parseFrac : List Char → Option (List Char × List Char)
  | '.' :: cs =>
    let (fs, rest) := spanDigits cs
    if fs = [] then none else some ('.' :: fs, rest)
  | cs => some ([], cs)

/-- Optional exponent part `e[+-]ddd` of a JSON number. -/
def parseExp : List Char → Option (List Char × List Char)
  | c :: cs =>
    if c = 'e' ∨ c = 'E' then
      let (sgn, cs1) :=
        match cs with
        | s :: r => if s = '+' ∨ s = '-' then ([s], r) else (([] : List Char), s :: r)
        | [] => ([], [])
      let (ds, rest) := spanDigits cs1
      if ds = [] then none else some (c :: (sgn ++ ds), rest)
    else some ([], c :: cs)
  | [] => some ([], [])

def digitsToNat (ds : List Char) : Nat :=
  ds.foldl (fun acc c => acc * 10 + (c.toNat - 48)) 0

/-- A JSON number literal: integral literals decode to `JValue.num`,
fraction/exponent literals to `JValue.flt` holding the consumed text. -/
def parseNumber (cs : List Char) : Option (JValue × List Char) :=
  let (sign, cs1) :=
    match cs with
    | '-' :: rest => ([('-' : Char)], rest)
    | _ => (([] : List Char), cs)
  match cs1 with
  | [] => none
  | c0 :: _ =>
    if c0.isDigit = false then none
    else
      let (ds, cs2) := spanDigits cs1
      if 1 < ds.length ∧ ds.headD 'x' = '0' then none
      else
        match parseFrac cs2 with
        | none => none
        | some (fr, cs3) =>
          match parseExp cs3 with
          | none => none
          | some (ex, cs4) =>
            if fr = [] ∧ ex = [] then
              some (.num (if sign = [] then (digitsToNat ds : Int) else -(digitsToNat ds : Int)), cs4)
            else
              some (.flt (String.mk (sign ++ ds ++ fr ++ ex)), cs4)

mutual

/-- One JSON value (leading whitespace allowed), returning the rest of the
input; `json.loads` also accepts the non-standard `NaN`/`Infinity` tokens. -/
def parseValue : Nat → List Char → Option (JValue × List Char)
  | 0, _ => none
  | fuel + 1, cs =>
    match skipWs cs with
    | 't' :: 'r' :: 'u' :: 'e' :: rest => some (.bool true, rest)
    | 'f' :: 'a' :: 'l' :: 's' :: 'e' :: rest => some (.bool false, rest)
    | 'n' :: 'u' :: 'l' :: 'l' :: rest => some (.null, rest)
    | 'N' :: 'a' :: 'N' :: rest => some (.flt "nan", rest)
    | 'I' :: 'n' :: 'f' :: 'i' :: 'n' :: 'i' :: 't' :: 'y' :: rest => some (.flt "inf", rest)
    | '-' :: 'I' :: 'n' :: 'f' :: 'i' :: 'n' :: 'i' :: 't' :: 'y' :: rest =>
      some (.flt "-inf", rest)
    | '\"' :: rest =>
      match parseStringBody fuel rest with
      | some (s, r) => some (.str (String.mk s), r)
      | none => none
    | '[' :: rest => parseArrayItems fuel (skipWs rest)
    | '\x7b' :: rest => parseObjectItems fuel (skipWs rest)
    | cs2 => parseNumber cs2

/-- Array items, positioned just after `[` with whitespace skipped. -/
def parseArrayItems : Nat → List Char → Option (JValue × List Char)
  | 0, _ => none
  | fuel + 1, cs =>
    match cs with
    | ']' :: rest => some (.arr [], rest)
    | _ => parseArrayLoop fuel cs []

def parseArrayLoop : Nat → List Char → List JValue → Option (JValue × List Char)
  | 0, _, _ => none
  | fuel + 1, cs, acc =>
    match parseValue fuel cs with
    | none => none
    | some (v, rest) =>
      match skipWs rest with
      | ',' :: rest2 => parseArrayLoop fuel rest2 (acc ++ [v])
      | ']' :: rest2 => some (.arr (acc ++ [v]), rest2)
      | _ => none

/-- Object members, positioned just after the opening brace with whitespace
skipped. -/
def parseObjectItems : Nat → List Char → Option (JValue × List Char)
  | 0, _ => none
  | fuel + 1, cs =>
    match cs with
    | '\x7d' :: rest => some (.obj [], rest)
    | _ => parseObjectLoop fuel cs []

def parseObjectLoop : Nat → List Char → List (String × JValue) →
    Option (JValue × List Char)
  | 0, _, _ => none
  | fuel + 1, cs, acc =>
    match skipWs cs with
    | '\"' :: rest =>
      match parseStringBody fuel rest with
      | none => none
      | some (k, rest2) =>
        match skipWs rest2 with
        | ':' :: rest3 =>
          match parseValue fuel rest3 with
          | none => none
          | some (v, rest4) =>
            let acc2 := dinsert acc (String.mk k) v
            match skipWs rest4 with
            | ',' :: rest5 => parseObjectLoop fuel rest5 acc2
            | '\x7d' :: rest5 => some (.obj acc2, rest5)
            | _ => none
        | _ => none
    | _ => none

end

/-- Model of `json.loads(s)`: one JSON document followed only by whitespace;
`none` models `json.JSONDecodeError`. -/
def json_loads (s : String) : Option JValue :=
  match parseValue (4 * s.toList.length + 4) s.toList with
  | some (v, rest) => if skipWs rest = [] then some v else none
  | none => none

/-! ## Python `str`/`repr` rendering used at export time -/

/-- `repr` of a Python string (single-quoted; used only inside containers). -/
def pyReprStr (s : String) : String :=
  String.mk ('\x27' :: s.toList ++ ['\x27'])

mutual

/-- `repr` of a decoded JSON value, for values rendered inside containers. -/
def pyRepr : JValue → String
  | .null => "None"
  | .bool b => if b then "True" else "False"
  | .num n => toString n
  | .flt raw => raw
  | .str s => pyReprStr s
  | .arr xs => "[" ++ pyReprList xs ++ "]"
  | .obj kvs => "\x7b" ++ pyReprObj kvs ++ "\x7d"

def pyReprList : List JValue → String
  | [] => ""
  | [x] => pyRepr x
  | x :: y :: xs => pyRepr x ++ ", " ++ pyReprList (y :: xs)

def pyReprObj : List (String × JValue) → String
  | [] => ""
  | [(k, v)] => pyReprStr k ++ ": " ++ pyRepr v
  | (k, v) :: kv :: kvs => pyReprStr k ++ ": " ++ pyRepr v ++ ", " ++ pyReprObj (kv :: kvs)

end

/-- Python `str(value)` on a calculated cell value. -/
def pyStrTop : JValue → String
  | .null => "None"
  | .bool b => if b then "True" else "False"
  | .num n => toString n
  | .flt raw => raw
  | .str s => s
  | .arr xs => pyRepr (.arr xs)
  | .obj kvs => pyRepr (.obj kvs)

/-- Cell serialization of `_save_as_csv` (lines 977-982): `None` becomes the
empty string, anything else goes through `str(value)`. -/
def exportCell : JValue → String
  | .null => ""
  | v => pyStrTop v

/-! ## Value extractors (lines 778-847) -/

/-- `_extract_vnk` (lines 816-821): first half of `hiline_section` when its
length is at least 2, the raw value unchanged otherwise. -/
def extract_vnk (s : String) : String :=
  if s.toList ≠ [] ∧ 2 ≤ s.toList.length then
    String.mk (s.toList.take (s.toList.length / 2))
  else s

/-- `_extract_nnk` (lines 823-828): second half of `hiline_section` when its
length is at least 2, the raw value unchanged otherwise. -/
def extract_nnk (s : String) : String :=
  if s.toList ≠ [] ∧ 2 ≤ s.toList.length then
    String.mk (s.toList.drop (s.toList.length / 2))
  else s

/-- `_extract_klasse` (lines 830-841): uppercased first character, then the
suffix re-rendered through `int(...)` when it parses, else the raw suffix. -/
def extract_klasse (s : String) : String :=
  match s.toList with
  | [] => ""
  | c :: rest =>
    let letter := String.mk [pyUpperChar c]
    let numeric_part := String.mk rest
    match pyInt? numeric_part with
    | some numeric_value => letter ++ toString numeric_value
    | none => letter ++ numeric_part

/-- `_extract_nummer` (lines 843-847): everything after the first character. -/
def extract_nummer (s : String) : String :=
  match s.toList with
  | [] => ""
  | _ :: rest => String.mk rest

/-- `survey_result.tp3` field table of `_extract_from_business_data`. -/
def survey_tp3_fields : List (String × String) :=
  [("EFLI", "efli"), ("AFLI", "afli"), ("RISS", "riss"), ("ONA", "ona")]

/-- `evaluation_result.tp3` field table of `_extract_from_business_data`. -/
def eval_tp3_fields : List (String × String) :=
  [("ZWAUS", "zwaus"), ("ZWBIN", "zwbin"), ("ZWONA", "zwona"),
   ("ZWRSF", "zwrsf"), ("ZWSCH", "zwsch"), ("ZWAFLI", "zwafli"),
   ("ZWBORD", "zwbord"), ("ZWEFLI", "zwefli"), ("ZWRISS", "zwriss"),
   ("ZWWURZ", "zwwurz")]

/-- `evaluation_result.overall` field table of `_extract_from_business_data`. -/
def overall_fields : List (String × String) :=
  [("GW", "gw"), ("GEB", "geb"), ("SUB", "sub")]

/-- The three-branch table cascade of `_extract_from_business_data`
(lines 801-811), resolved to the two containing keys and the leaf key. -/
def bdKeys (target_field : String) : Option (String × String × String) :=
  match survey_tp3_fields.lookup target_field with
  | some key => some ("survey_result", "tp3", key)
  | none =>
    match eval_tp3_fields.lookup target_field with
    | some key => some ("evaluation_result", "tp3", key)
    | none =>
      match overall_fields.lookup target_field with
      | some key => some ("evaluation_result", "overall", key)
      | none => none

/-- Python `d.get(k, default)`: `none` models the `AttributeError` raised when
the receiver is not a dict. -/
def pyDictGet (v : JValue) (k : String) (default : JValue) : Option JValue :=
  match v with
  | .obj kvs => some ((dictLookup kvs k).getD default)
  | _ => none

/-- The `data.get(a, {}).get(b, {}).get(c, "")` chain of
`_extract_from_business_data`; `none` models an uncaught-so-far
`AttributeError` on the way. -/
def chain3 (j : JValue) (k1 k2 k3 : String) : Option JValue :=
  match pyDictGet j k1 (.obj []) with
  | none => none
  | some a =>
    match pyDictGet a k2 (.obj []) with
    | none => none
    | some b => pyDictGet b k3 (.str "")

/-- `_extract_from_business_data` (lines 778-814): parse the raw value with
`json.loads` and walk the fixed path for the target field; the surrounding
`try`/`except` turns a decode failure or attribute error into `""`. -/
def extract_from_business_data (json_str : String) (target_field : String) : JValue :=
  match json_loads json_str with
  | none => .str ""
  | some data =>
    (match bdKeys target_field with
     | some (k1, k2, k3) => chain3 data k1 k2 k3
     | none => some (.str "")).getD (.str "")

/-- The 16 target fields routed to `_extract_from_business_data` by the
dispatch in `calculate_data` (lines 887-891). -/
def businessDataFields : List String :=
  ["EFLI", "AFLI", "RISS", "ZWAUS", "ZWBIN", "ZWONA",
   "ZWRSF", "ZWSCH", "ZWAFLI", "ZWBORD", "ZWEFLI",
   "ZWRISS", "ZWWURZ", "GW", "GEB", "SUB"]

/-- The per-cell transformation dispatch of `calculate_data`
(lines 878-895): first matching rule wins, identity passthrough otherwise. -/
def extractCell (target_field : String) (csv_column : String) (raw_value : String) : JValue :=
  if target_field = "VNK" ∧ pyLower csv_column = "hiline_section" then
    .str (extract_vnk raw_value)
  else if target_field = "NNK" ∧ pyLower csv_column = "hiline_section" then
    .str (extract_nnk raw_value)
  else if target_field = "KLASSE" ∧ pyLower csv_column = "hiline_road" then
    .str (extract_klasse raw_value)
  else if target_field = "NUMMER" ∧ pyLower csv_column = "hiline_road" then
    .str (extract_nummer raw_value)
  else if pyLower csv_column = "business_data" ∧ target_field ∈ businessDataFields then
    extract_from_business_data raw_value target_field
  else
    .str raw_value

/-! ## Calculation engine (lines 849-917) -/

/-- Index of the last occurrence of a header name, mirroring the dict
comprehension `{h: i for i, h in enumerate(headers)}` (later keys win). -/
def lastIndexOf : List String → String → Option Nat
  | [], _ => none
  | h :: t, x =>
    match lastIndexOf t x with
    | some j => some (j + 1)
    | none => if h = x then some 0 else none

/-- `header_index.get(csv_column, -1)` (lines 866, 875). -/
def header_index (headers : List String) (csv_column : String) : Int :=
  match lastIndexOf headers csv_column with
  | some i => (i : Int)
  | none => -1

/-- `row[csv_col_index] if 0 <= csv_col_index < len(row) else ""` (line 876). -/
def rawCell (headers : List String) (row : List String) (csv_column : String) : String :=
  let i := header_index headers csv_column
  if 0 ≤ i ∧ i < (row.length : Int) then row.getD i.toNat "" else ""

/-- `active_mappings = {k: v for k, v in mappings.items() if v}` (line 864). -/
def activeMappings (mappings : List (String × String)) : List (String × String) :=
  mappings.filter (fun kv => kv.2 ≠ "")

/-- The column-oriented table built by the row loop of `calculate_data`
(lines 868-897): one column per active mapping, one value per source row. -/
def calcTable (headers : List String) (rows : List (List String))
    (active : List (String × String)) : List (String × List JValue) :=
  active.map (fun fc =>
    (fc.1, rows.map (fun row => extractCell fc.1 fc.2 (rawCell headers row fc.2))))

/-- The mutable application state owned by the `CSVFieldMapper` instance that
the core operations read and write. -/
structure AppState where
  target_fields : List String
  csv_headers : List String
  csv_data : List (List String)
  mappings : List (String × String)
  calculated_data : Option (List (String × List JValue))
deriving Repr

/-- How one `calculate_data` run ends. `noMappings`/`noData` are the two
precondition warnings (the spec's `InputError`), `error` the caught exception
path, `ok` success. `cancelled` is the outcome the spec's taxonomy names
`Cancelled`; no code path of the source produces it. -/
inductive CalcOutcome where
  | noMappings
  | noData
  | cancelled
  | error
  | ok
deriving Repr, DecidableEq

/-- `calculate_data` (lines 849-917). `cancelFlag` gives the state of
`ProgressDialog.cancelled` when each row is processed — the source never
reads it, so it is never consulted. `failAt = some k` models an exception
thrown inside the `try` block after `k` rows; the handler (lines 913-917)
then discards the partially built table. -/
def calculate_data (st : AppState) (cancelFlag : Nat → Bool) (failAt : Option Nat) :
    CalcOutcome × AppState :=
  if st.mappings = [] then (.noMappings, st)
  else if st.csv_data = [] then (.noData, st)
  else
    match failAt with
    | some _ => (.error, { st with calculated_data := none })
    | none =>
      let table := calcTable st.csv_headers st.csv_data (activeMappings st.mappings)
      (.ok, { st with calculated_data := some table })

/-! ## Mapping-table operations and the rest of the state machine -/

/-- `on_mapping_selected` (lines 632-648): upsert the entry when a column was
chosen, remove it when the empty choice was chosen; always drops the
calculated table. -/
def on_mapping_selected (st : AppState) (target_field : String) (csv_column : String) :
    AppState :=
  let m :=
    if csv_column ≠ "" then dinsert st.mappings target_field csv_column
    else derase st.mappings target_field
  { st with mappings := m, calculated_data := none }

/-- `clear_single_mapping` (lines 766-776). -/
def clear_single_mapping (st : AppState) (target_field : String) : AppState :=
  { st with mappings := derase st.mappings target_field, calculated_data := none }

/-- `clear_mappings` (lines 753-764). -/
def clear_mappings (st : AppState) : AppState :=
  { st with mappings := [], calculated_data := none }

/-- `auto_map` (lines 698-712): no-op when no CSV is loaded, else clear and
bind the target field at index `i` to the header at index `i`. -/
def auto_map (st : AppState) : AppState :=
  if st.csv_headers = [] then st
  else
    let st1 := clear_mappings st
    let m :=
      st1.target_fields.enum.foldl
        (fun m p =>
          if p.1 < st1.csv_headers.length then
            dinsert m p.2 (st1.csv_headers.getD p.1 "")
          else m)
        []
    { st1 with mappings := m }

/-- The static rule table of `smart_auto_map` (lines 720-731). -/
def mapping_rules : List (String × List String) :=
  [("ID", ["ID"]),
   ("hiline_carriageway", ["LAGE"]),
   ("hiline_road", ["KLASSE", "NUMMER"]),
   ("business_data", businessDataFields),
   ("hiline_section", ["VNK", "NNK"]),
   ("hiline_lane", ["FS"])]

/-- `smart_auto_map` (lines 714-751): no-op when no CSV is loaded, else clear
and, for each rule whose source column matches a header case-insensitively,
bind every listed target field that exists. -/
def smart_auto_map (st : AppState) : AppState :=
  if st.csv_headers = [] then st
  else
    let st1 := clear_mappings st
    let csv_header_map := st1.csv_headers.foldl (fun m h => dinsert m (pyLower h) h) []
    let m :=
      mapping_rules.foldl
        (fun acc rule =>
          match csv_header_map.lookup (pyLower rule.1) with
          | none => acc
          | some actual_csv_col =>
            rule.2.foldl
              (fun acc2 tf =>
                if tf ∈ st1.target_fields then dinsert acc2 tf actual_csv_col else acc2)
              acc)
        []
    { st1 with mappings := m }

/-- The mapping restoration of `rebuild_target_panel` (lines 531-555): cleared,
then entries whose field still exists and whose column is still a header are
restored (only when a CSV is loaded). -/
def rebuild_mappings (old_mappings : List (String × String)) (new_fields : List String)
    (headers : List String) : List (String × String) :=
  if headers = [] then []
  else
    old_mappings.foldl
      (fun m fc => if fc.1 ∈ new_fields ∧ fc.2 ∈ headers then dinsert m fc.1 fc.2 else m)
      []

/-- `edit_target_fields` (lines 519-529) on the success path, with the field
list the dialog returned. -/
def edit_target_fields (st : AppState) (new_fields : List String) : AppState :=
  { st with target_fields := new_fields,
            mappings := rebuild_mappings st.mappings new_fields st.csv_headers,
            calculated_data := none }

/-- `load_csv` (lines 557-617) on the success path, with the parsed headers
and rows the CSV collaborator produced (line 602 drops the calculated table;
the mapping dict itself is not touched by a load). -/
def load_csv (st : AppState) (headers : List String) (rows : List (List String)) :
    AppState :=
  { st with csv_headers := headers, csv_data := rows, calculated_data := none }

/-! ## Export (lines 919-994) -/

/-- `fields_with_data` (line 958): exported fields are those whose column is
nonempty. -/
def fields_with_data (table : List (String × List JValue)) : List String :=
  (table.filter (fun kv => !kv.2.isEmpty)).map (fun kv => kv.1)

/-- The data rows `_save_as_csv` writes (lines 974-983), one string per
exported field per row. -/
def save_rows (table : List (String × List JValue)) : List (List String) :=
  match fields_with_data table with
  | [] => []
  | f0 :: rest =>
    let num_rows := ((table.lookup f0).getD []).length
    (List.range num_rows).map (fun i =>
      (f0 :: rest).map (fun f => exportCell (((table.lookup f).getD []).getD i (.str ""))))

/-- The full line list `_save_as_csv` writes: header row, then data rows. -/
def save_csv_lines (table : List (String × List JValue)) : List (List String) :=
  fields_with_data table :: save_rows table

/-- How `save_to_access` (lines 919-953) begins: with no calculated data (or a
falsy empty dict) it warns and returns; otherwise it exports. -/
inductive SaveOutcome where
  | notCalculated
  | exported (lines : List (List String))
deriving Repr

/-- `save_to_access` gate (lines 921-923) followed by the CSV branch. -/
def save_to_access (st : AppState) : SaveOutcome :=
  match st.calculated_data with
  | none => .notCalculated
  | some table => if table.isEmpty then .notCalculated else .exported (save_csv_lines table)

/-! ## Spec-side definitions -/

/-- Modelled from the spec (§4.1 structured-document path table): the fixed
lookup path the specification assigns to each business-data field. -/
def bdPath (t : String) : List String :=
  if t ∈ ["EFLI", "AFLI", "RISS", "ONA"] then
    ["survey_result", "tp3", pyLower t]
  else if t ∈ ["ZWAUS", "ZWBIN", "ZWONA", "ZWRSF", "ZWSCH",
               "ZWAFLI", "ZWBORD", "ZWEFLI", "ZWRISS", "ZWWURZ"] then
    ["evaluation_result", "tp3", pyLower t]
  else
    ["evaluation_result", "overall", pyLower t]

/-- Strict nested lookup along a key path (the spec's notion of the path
being present in the document). -/
def jPath : JValue → List String → Option JValue
  | v, [] => some v
  | .obj kvs, k :: rest =>
    match dictLookup kvs k with
    | some v => jPath v rest
    | none => none
  | _, _ :: _ => none

/-- `jPath` lifted over the result of `json_loads`. -/
def jPathO : Option JValue → List String → Option JValue
  | none, _ => none
  | some v, ks => jPath v ks

/-! ## Helper lemmas about the dispatch and the raw-cell lookup -/

theorem extractCell_vnk (s : String) :
    extractCell "VNK" "hiline_section" s = .str (extract_vnk s) := by
  unfold extractCell
  rw [if_pos ⟨rfl, by decide⟩]

theorem extractCell_nnk (s : String) :
    extractCell "NNK" "hiline_section" s = .str (extract_nnk s) := by
  unfold extractCell
  rw [if_neg (fun hc => by exact absurd hc.1 (by decide)), if_pos ⟨rfl, by decide⟩]

theorem extractCell_klasse (s : String) :
    extractCell "KLASSE" "hiline_road" s = .str (extract_klasse s) := by
  unfold extractCell
  rw [if_neg (fun hc => by exact absurd hc.1 (by decide)),
      if_neg (fun hc => by exact absurd hc.1 (by decide)), if_pos ⟨rfl, by decide⟩]

theorem extractCell_business {t : String} (ht : t ∈ businessDataFields) (s : String) :
    extractCell t "business_data" s = extract_from_business_data s t := by
  unfold extractCell
  rw [if_neg (fun hc => by exact absurd hc.2 (by decide)),
      if_neg (fun hc => by exact absurd hc.2 (by decide)),
      if_neg (fun hc => by exact absurd hc.2 (by decide)),
      if_neg (fun hc => by exact absurd hc.2 (by decide)),
      if_pos ⟨by decide, ht⟩]

/-- Every extraction rule maps the empty raw value to the empty string. -/
theorem extractCell_empty_raw (f c : String) : extractCell f c "" = .str "" := by
  unfold extractCell
  split
  · rfl
  split
  · rfl
  split
  · rfl
  split
  · rfl
  split
  · show extract_from_business_data "" f = _
    rfl
  · rfl

theorem lastIndexOf_eq_none {l : List String} {x : String} (h : x ∉ l) :
    lastIndexOf l x = none := by
  induction l with
  | nil => rfl
  | cons a t ih =>
    rw [List.mem_cons, not_or] at h
    unfold lastIndexOf
    rw [ih h.2, if_neg (fun he => h.1 he.symm)]

theorem rawCell_of_not_mem {headers : List String} {c : String} (h : c ∉ headers)
    (row : List String) : rawCell headers row c = "" := by
  unfold rawCell header_index
  rw [lastIndexOf_eq_none h]
  exact if_neg (fun hc => absurd hc.1 (by norm_num))

/-- When the spec-side path lookup misses, the `get`-with-default chain of the
extractor (with its `AttributeError` fallback) produces the empty string. -/
theorem chain3_getD_of_jPath_none {j : JValue} {k1 k2 k3 : String}
    (h : jPath j [k1, k2, k3] = none) :
    (chain3 j k1 k2 k3).getD (.str "") = .str "" := by
  unfold chain3
  cases j with
  | obj kvs =>
    rcases h1 : dictLookup kvs k1 with _ | a
    · simp [pyDictGet, h1, dictLookup]
    · simp only [jPath, h1] at h
      cases a with
      | obj kvs2 =>
        rcases h2 : dictLookup kvs2 k2 with _ | b
        · simp [pyDictGet, h1, h2, dictLookup]
        · simp only [jPath, h2] at h
          cases b with
          | obj kvs3 =>
            rcases h3 : dictLookup kvs3 k3 with _ | v
            · simp [pyDictGet, h1, h2, h3]
            · rw [jPath, h3] at h
              exact absurd h (by simp [jPath])
          | null => simp [pyDictGet, h1, h2]
          | bool b => simp [pyDictGet, h1, h2]
          | num n => simp [pyDictGet, h1, h2]
          | flt raw => simp [pyDictGet, h1, h2]
          | str s => simp [pyDictGet, h1, h2]
          | arr xs => simp [pyDictGet, h1, h2]
      | null => simp [pyDictGet, h1]
      | bool b => simp [pyDictGet, h1]
      | num n => simp [pyDictGet, h1]
      | flt raw => simp [pyDictGet, h1]
      | str s => simp [pyDictGet, h1]
      | arr xs => simp [pyDictGet, h1]
  | null => simp [pyDictGet]
  | bool b => simp [pyDictGet]
  | num n => simp [pyDictGet]
  | flt raw => simp [pyDictGet]
  | str s => simp [pyDictGet]
  | arr xs => simp [pyDictGet]

/-- When the spec-side path lookup hits, the `get`-with-default chain of the
extractor returns exactly the value found at the path. -/
theorem chain3_of_jPath_some {j v : JValue} {k1 k2 k3 : String}
    (h : jPath j [k1, k2, k3] = some v) :
    chain3 j k1 k2 k3 = some v := by
  unfold chain3
  cases j with
  | obj kvs =>
    rcases h1 : dictLookup kvs k1 with _ | a
    · simp only [jPath, h1] at h
      exact Option.noConfusion h
    · simp only [jPath, h1] at h
      cases a with
      | obj kvs2 =>
        rcases h2 : dictLookup kvs2 k2 with _ | b
        · simp only [jPath, h2] at h
          exact Option.noConfusion h
        · simp only [jPath, h2] at h
          cases b with
          | obj kvs3 =>
            rcases h3 : dictLookup kvs3 k3 with _ | w
            · simp only [jPath, h3] at h
              exact Option.noConfusion h
            · rw [jPath, h3] at h
              simp only [jPath, Option.some.injEq] at h
              subst h
              simp [pyDictGet, h1, h2, h3]
          | null => simp [jPath] at h
          | bool b => simp [jPath] at h
          | num n => simp [jPath] at h
          | flt raw => simp [jPath] at h
          | str s => simp [jPath] at h
          | arr xs => simp [jPath] at h
      | null => simp [jPath] at h
      | bool b => simp [jPath] at h
      | num n => simp [jPath] at h
      | flt raw => simp [jPath] at h
      | str s => simp [jPath] at h
      | arr xs => simp [jPath] at h
  | null => simp [jPath] at h
  | bool b => simp [jPath] at h
  | num n => simp [jPath] at h
  | flt raw => simp [jPath] at h
  | str s => simp [jPath] at h
  | arr xs => simp [jPath] at h

theorem extract_bd_of_path_none {t k1 k2 k3 s : String}
    (hk : bdKeys t = some (k1, k2, k3))
    (hp : jPathO (json_loads s) [k1, k2, k3] = none) :
    extract_from_business_data s t = .str "" := by
  unfold extract_from_business_data
  rcases hj : json_loads s with _ | j
  · rfl
  · rw [hj] at hp
    simp only [jPathO] at hp
    rw [hk]
    show (chain3 j k1 k2 k3).getD (.str "") = .str ""
    exact chain3_getD_of_jPath_none hp

theorem dinsert_of_not_mem {α : Type} {m : List (String × α)} {k : String}
    (h : k ∉ m.map Prod.fst) (v : α) : dinsert m k v = m ++ [(k, v)] := by
  induction m with
  | nil => rfl
  | cons kv t ih =>
    rw [List.map_cons, List.mem_cons, not_or] at h
    unfold dinsert
    rw [if_neg (fun he => h.1 he.symm), ih h.2]
    rfl

theorem lookup_zip_eq_none {k : String} :
    ∀ {T H : List String}, T.Nodup → k ∈ T.drop H.length → (T.zip H).lookup k = none := by
  intro T
  induction T with
  | nil => intro H _ hk; simp at hk
  | cons a T ih =>
    intro H hnd hk
    rw [List.nodup_cons] at hnd
    cases H with
    | nil => simp [List.zip_nil_right]
    | cons b H =>
      simp only [List.length_cons, List.drop_succ_cons] at hk
      have hkT : k ∈ T := List.mem_of_mem_drop hk
      have hka : (k == a) = false := by
        have : k ≠ a := fun he => hnd.1 (he ▸ hkT)
        simpa using this
      show List.lookup k ((a, b) :: T.zip H) = none
      simp only [List.lookup, hka]
      exact ih hnd.2 hk

theorem getD_mem_drop :
    ∀ (T : List String) (i n : Nat), n ≤ i → i < T.length → T.getD i "" ∈ T.drop n := by
  intro T
  induction T with
  | nil => intro i n _ hi; simp at hi
  | cons a T ih =>
    intro i n hn hi
    cases n with
    | zero =>
      rw [List.drop_zero, List.getD_eq_getElem _ _ hi]
      exact List.getElem_mem hi
    | succ n =>
      cases i with
      | zero => exact absurd hn (by omega)
      | succ i =>
        rw [List.drop_succ_cons,
            show (a :: T).getD (i + 1) "" = T.getD i "" from rfl]
        exact ih i n (Nat.le_of_succ_le_succ hn) (Nat.lt_of_succ_lt_succ hi)

/-- The positional binding loop of `auto_map`, over an association list whose
keys are disjoint from the remaining fields: with distinct field names it
appends exactly the positional pairs. -/
theorem positional_foldl (H : List String) :
    ∀ (T : List String) (n : Nat) (m : List (String × String)),
      T.Nodup → (∀ t ∈ T, t ∉ m.map Prod.fst) →
      (List.enumFrom n T).foldl
          (fun acc p =>
            if p.1 < H.length then dinsert acc p.2 (H.getD p.1 "") else acc) m
        = m ++ T.zip (H.drop n) := by
  intro T
  induction T with
  | nil =>
    intro n m _ _
    simp
  | cons a T ih =>
    intro n m hnd hdisj
    rw [List.nodup_cons] at hnd
    rw [show List.enumFrom n (a :: T) = (n, a) :: List.enumFrom (n + 1) T from rfl,
        List.foldl_cons]
    by_cases hn : n < H.length
    · rw [if_pos hn, dinsert_of_not_mem (hdisj a (List.mem_cons_self a T))]
      have hdisj2 : ∀ t ∈ T, t ∉ (m ++ [(a, H.getD n "")]).map Prod.fst := by
        intro t ht
        rw [List.map_append, List.mem_append, not_or]
        refine ⟨hdisj t (List.mem_cons_of_mem a ht), ?_⟩
        simp only [List.map_cons, List.map_nil, List.mem_singleton]
        exact fun he => hnd.1 (he ▸ ht)
      have hdrop : H.drop n = H.getD n "" :: H.drop (n + 1) := by
        rw [List.getD_eq_getElem H "" hn]
        exact List.drop_eq_getElem_cons hn
      rw [ih (n + 1) (m ++ [(a, H.getD n "")]) hnd.2 hdisj2, List.append_assoc, hdrop,
          List.zip_cons_cons]
      rfl
    · rw [if_neg hn,
          ih (n + 1) m hnd.2 (fun t ht => hdisj t (List.mem_cons_of_mem a ht)),
          List.drop_eq_nil_of_le (Nat.le_of_not_lt hn),
          List.drop_eq_nil_of_le (Nat.le_succ_of_le (Nat.le_of_not_lt hn))]
      simp [List.zip_nil_right]

theorem extract_bd_of_path_some {t k1 k2 k3 s : String} {j v : JValue}
    (hk : bdKeys t = some (k1, k2, k3)) (hj : json_loads s = some j)
    (hp : jPath j [k1, k2, k3] = some v) :
    extract_from_business_data s t = v := by
  unfold extract_from_business_data
  rw [hj, hk]
  show (chain3 j k1 k2 k3).getD (.str "") = v
  rw [chain3_of_jPath_some hp]
  rfl

/-! ## Claim C1 -/

def st_c1 : AppState :=
  { target_fields := ["ID"], csv_headers := ["a"], csv_data := [["x"]],
    mappings := [("ID", "a")], calculated_data := some [("OLD", [.str "old"])] }

/-- C1 counterexample: at a state with one mapped field, one data row and a
previously stored calculated table, with the progress dialog's cancelled flag
set for the whole run, the calculation does not abort with a `Cancelled`
outcome — it completes with `ok` — and the previously stored calculated table
is not left untouched: it is replaced by the newly computed one. -/
theorem C1_cancel_counterexample :
    (calculate_data st_c1 (fun _ => true) none).1 ≠ CalcOutcome.cancelled
    ∧ (calculate_data st_c1 (fun _ => true) none).1 = CalcOutcome.ok
    ∧ (calculate_data st_c1 (fun _ => true) none).2.calculated_data
        ≠ st_c1.calculated_data := by
  refine ⟨by decide, rfl, fun h => ?_⟩
  rw [show (calculate_data st_c1 (fun _ => true) none).2.calculated_data
        = some [("ID", [JValue.str "x"])] from rfl,
      show st_c1.calculated_data = some [("OLD", [JValue.str "old"])] from rfl] at h
  simp at h

/-- C1 (amended): the cancellation flag is never consulted by a calculation
run — the result is independent of it and is never the `Cancelled` outcome —
and once the preconditions pass, the stored calculated table is
unconditionally replaced (by the fresh result on success, by `none` on
failure), never preserved or restored. -/
theorem C1_cancellation_never_consulted (st : AppState) (f g : Nat → Bool)
    (failAt : Option Nat) :
    calculate_data st f failAt = calculate_data st g failAt
    ∧ (calculate_data st f failAt).1 ≠ CalcOutcome.cancelled
    ∧ (st.mappings ≠ [] → st.csv_data ≠ [] →
        (calculate_data st f failAt).2.calculated_data =
          (match failAt with
           | some _ => none
           | none =>
             some (calcTable st.csv_headers st.csv_data (activeMappings st.mappings)))) := by
  refine ⟨rfl, ?_, fun h1 h2 => ?_⟩
  · unfold calculate_data
    by_cases h1 : st.mappings = [] <;> by_cases h2 : st.csv_data = [] <;>
      simp [h1, h2] <;> cases failAt <;> simp
  · unfold calculate_data
    rw [if_neg h1, if_neg h2]
    cases failAt <;> rfl

theorem C1_cancellation_never_consulted_witness :
    (calculate_data st_c1 (fun _ => true) none).2.calculated_data =
      some (calcTable st_c1.csv_headers st_c1.csv_data (activeMappings st_c1.mappings)) := by
  have h := C1_cancellation_never_consulted st_c1 (fun _ => true) (fun _ => false) none
  exact h.2.2 (by decide) (by decide)

/-! ## Claim C2 -/

def st_c2 : AppState :=
  { target_fields := ["ID"], csv_headers := ["a"], csv_data := [["x"]],
    mappings := [], calculated_data := some [("OLD", [.str "old"])] }

/-- C2: a calculation run ends in one of the two precondition warnings (the
spec's `InputError`) exactly when the mapping is empty or the source table has
zero rows, and in that case the whole application state — calculated table,
mapping and source table included — is left unchanged. -/
theorem C2_input_error_iff (st : AppState) (cf : Nat → Bool) (failAt : Option Nat) :
    (((calculate_data st cf failAt).1 = CalcOutcome.noMappings ∨
       (calculate_data st cf failAt).1 = CalcOutcome.noData) ↔
      (st.mappings = [] ∨ st.csv_data = []))
    ∧ ((st.mappings = [] ∨ st.csv_data = []) → (calculate_data st cf failAt).2 = st) := by
  unfold calculate_data
  by_cases h1 : st.mappings = [] <;> by_cases h2 : st.csv_data = [] <;>
    simp [h1, h2] <;> cases failAt <;> simp

theorem C2_input_error_iff_witness :
    st_c2.mappings = [] ∧ (calculate_data st_c2 (fun _ => false) none).2 = st_c2 :=
  ⟨rfl, (C2_input_error_iff st_c2 (fun _ => false) none).2 (Or.inl rfl)⟩

/-! ## Claim C3 -/

/-- C3: the KLASSE extraction returns the empty string on empty input, and
otherwise the uppercased first character followed by the suffix re-rendered
through `int(...)` when it parses (dropping leading zeros), or the raw suffix
unchanged when it does not; in particular `"l0048" ↦ "L48"` and
`"x7" ↦ "X7"`. -/
theorem C3_klasse_extraction (s : String) :
    (extractCell "KLASSE" "hiline_road" s =
      .str (match s.toList with
            | [] => ""
            | c :: rest =>
              match pyInt? (String.mk rest) with
              | some n => String.mk [pyUpperChar c] ++ toString n
              | none => String.mk [pyUpperChar c] ++ String.mk rest))
    ∧ extractCell "KLASSE" "hiline_road" "l0048" = .str "L48"
    ∧ extractCell "KLASSE" "hiline_road" "x7" = .str "X7"
    ∧ extractCell "KLASSE" "hiline_road" "" = .str "" := by
  refine ⟨?_, rfl, rfl, rfl⟩
  rw [extractCell_klasse]
  rfl

/-! ## Claim C4 -/

/-- C4: the VNK extraction on `hiline_section` returns the first
`⌊len/2⌋` characters and NNK the rest when the length is at least 2; shorter
values are returned unchanged; and for even-length input the two halves
concatenate back to the original string. -/
theorem C4_vnk_nnk_split (s : String) :
    (extractCell "VNK" "hiline_section" s =
      .str (if 2 ≤ s.toList.length then String.mk (s.toList.take (s.toList.length / 2))
            else s))
    ∧ (extractCell "NNK" "hiline_section" s =
      .str (if 2 ≤ s.toList.length then String.mk (s.toList.drop (s.toList.length / 2))
            else s))
    ∧ (s.toList.length % 2 = 0 → extract_vnk s ++ extract_nnk s = s)
    ∧ extractCell "VNK" "hiline_section" "ABCDEF" = .str "ABC"
    ∧ extractCell "NNK" "hiline_section" "ABCDEF" = .str "DEF" := by
  have hne : 2 ≤ s.toList.length → s.toList ≠ [] := by
    intro h he
    rw [he] at h
    exact absurd h (by decide)
  refine ⟨?_, ?_, ?_, rfl, rfl⟩
  · rw [extractCell_vnk]
    unfold extract_vnk
    by_cases h : 2 ≤ s.toList.length
    · rw [if_pos ⟨hne h, h⟩, if_pos h]
    · rw [if_neg (fun hc => h hc.2), if_neg h]
  · rw [extractCell_nnk]
    unfold extract_nnk
    by_cases h : 2 ≤ s.toList.length
    · rw [if_pos ⟨hne h, h⟩, if_pos h]
    · rw [if_neg (fun hc => h hc.2), if_neg h]
  · intro hev
    by_cases h : 2 ≤ s.toList.length
    · unfold extract_vnk extract_nnk
      rw [if_pos ⟨hne h, h⟩, if_pos ⟨hne h, h⟩]
      show String.mk (s.toList.take _ ++ s.toList.drop _) = s
      rw [List.take_append_drop]
      rfl
    · have h0 : s.toList.length = 0 := by omega
      have hnil : s.toList = [] := List.length_eq_zero.mp h0
      have hs : s = "" := by cases s; simp_all
      rw [hs]
      rfl

theorem C4_vnk_nnk_split_witness :
    extract_vnk "ABCDEF" ++ extract_nnk "ABCDEF" = "ABCDEF" :=
  (C4_vnk_nnk_split "ABCDEF").2.2.1 (by decide)

/-! ## Claim C5 -/

/-- C5: the fixed paths of the code agree with the spec's path table, and for
every business-data target field and every raw input whose parse fails or
whose path is absent from the parsed document, the extractor yields the empty
string (the decode failure is absorbed locally, never propagated). -/
theorem C5_business_failure_empty :
    (∀ t ∈ businessDataFields,
        (bdKeys t).map (fun p => [p.1, p.2.1, p.2.2]) = some (bdPath t))
    ∧ (∀ t ∈ businessDataFields, ∀ s : String,
        jPathO (json_loads s) (bdPath t) = none →
        extractCell t "business_data" s = .str "") := by
  constructor
  · decide
  · intro t ht s hp
    fin_cases ht <;>
      first
      | (rw [extractCell_business (by decide)]
         exact extract_bd_of_path_none rfl hp)

theorem C5_business_failure_empty_witness :
    ("GEB" ∈ businessDataFields)
    ∧ jPathO (json_loads "nonsense") (bdPath "GEB") = none
    ∧ extractCell "GEB" "business_data" "nonsense" = .str "" :=
  ⟨by decide, rfl, C5_business_failure_empty.2 "GEB" (by decide) "nonsense" rfl⟩

/-! ## Claim C6 -/

/-- C6: a mapped column name that does not occur among the headers produces a
column of empty strings (one per row, no indexing fault), and a row shorter
than the resolved column index contributes the empty string as raw value. -/
theorem C6_unresolved_and_ragged (headers : List String) (rows : List (List String))
    (mappings : List (String × String)) (f c c2 : String) (row : List String) :
    ((f, c) ∈ activeMappings mappings → c ∉ headers →
      (f, rows.map (fun _ => JValue.str "")) ∈ calcTable headers rows (activeMappings mappings))
    ∧ ((row.length : Int) ≤ header_index headers c2 → rawCell headers row c2 = "") := by
  constructor
  · intro hm hc
    unfold calcTable
    refine List.mem_map.mpr ⟨(f, c), hm, ?_⟩
    have hcell : ∀ r : List String, extractCell f c (rawCell headers r c) = .str "" := by
      intro r
      rw [rawCell_of_not_mem hc, extractCell_empty_raw]
    simp only [hcell]
  · intro hlen
    show (if 0 ≤ header_index headers c2 ∧ header_index headers c2 < (row.length : Int)
          then row.getD (header_index headers c2).toNat "" else "") = ""
    exact if_neg (fun hc => absurd hc.2 (not_lt.mpr hlen))

theorem C6_unresolved_and_ragged_witness :
    ("F", [JValue.str "", JValue.str ""]) ∈
      calcTable ["h", "k"] [["a"], []] (activeMappings [("F", "zzz")])
    ∧ rawCell ["h", "k"] [] "k" = "" := by
  have h := C6_unresolved_and_ragged ["h", "k"] [["a"], []] [("F", "zzz")] "F" "zzz" "k" []
  exact ⟨h.1 (by decide) (by decide), h.2 (by decide)⟩

/-! ## Claim C7 -/

def st_c7a : AppState :=
  { target_fields := ["A"], csv_headers := [], csv_data := [],
    mappings := [("A", "x")], calculated_data := none }

def st_c7b : AppState :=
  { target_fields := ["A", "A"], csv_headers := ["h1", "h2"], csv_data := [],
    mappings := [], calculated_data := none }

/-- C7 counterexample: (a) with an empty header list, positional auto-map is
an early-returning no-op, so the previous mapping entry for "A" survives even
though the claim demands every field beyond `min(len T, len H) = 0` be
unmapped and the previous mapping be fully overwritten; (b) with the
duplicated field list `["A", "A"]` and headers `["h1", "h2"]`, the field at
index 0 ends up bound to `"h2"`, not to the header `"h1"` at its own index. -/
theorem C7_auto_map_counterexample :
    (auto_map st_c7a = st_c7a ∧ (auto_map st_c7a).mappings.lookup "A" = some "x")
    ∧ (auto_map st_c7b).mappings.lookup "A" = some "h2" :=
  ⟨⟨rfl, rfl⟩, rfl⟩

/-- C7 (amended): provided a CSV is loaded (nonempty headers) and the target
field names are distinct, positional auto-map overwrites the mapping with
exactly the index-wise zip of fields and headers — so each field at an index
below `min(len T, len H)` is bound to the header at its index, and every
later field is unmapped. -/
theorem C7_auto_map_positional (st : AppState) (hH : st.csv_headers ≠ [])
    (hT : st.target_fields.Nodup) :
    (auto_map st).mappings = st.target_fields.zip st.csv_headers
    ∧ ∀ i, i < st.target_fields.length → st.csv_headers.length ≤ i →
        ((auto_map st).mappings).lookup (st.target_fields.getD i "") = none := by
  have hmap : (auto_map st).mappings
      = (List.enumFrom 0 st.target_fields).foldl
          (fun acc p =>
            if p.1 < st.csv_headers.length then dinsert acc p.2 (st.csv_headers.getD p.1 "")
            else acc) [] := by
    unfold auto_map
    rw [if_neg hH]
    rfl
  have hzip : (auto_map st).mappings = st.target_fields.zip st.csv_headers := by
    rw [hmap, positional_foldl st.csv_headers st.target_fields 0 [] hT (by simp)]
    simp
  refine ⟨hzip, fun i hi hHi => ?_⟩
  rw [hzip]
  exact lookup_zip_eq_none hT (getD_mem_drop st.target_fields i st.csv_headers.length hHi hi)

def st_c7w : AppState :=
  { target_fields := ["A", "B", "C", "D", "E"], csv_headers := ["h1", "h2", "h3"],
    csv_data := [], mappings := [("E", "old")], calculated_data := none }

theorem C7_auto_map_positional_witness :
    (auto_map st_c7w).mappings = [("A", "h1"), ("B", "h2"), ("C", "h3")]
    ∧ ((auto_map st_c7w).mappings).lookup "D" = none := by
  have h := C7_auto_map_positional st_c7w (by decide) (by decide)
  exact ⟨h.1.trans rfl, h.2 3 (by decide) (by decide)⟩

/-! ## Claim C8 -/

def st_c8 : AppState :=
  { target_fields := ["VNK"], csv_headers := ["col"], csv_data := [["v"]],
    mappings := [], calculated_data := some [("VNK", [.str "v"])] }

/-- C8: every mapping-changing operation (selecting a mapping, clearing one
entry, clearing all, either auto-map strategy), every target-field-set edit
and every CSV load leaves the stored calculated table absent (`none`) —
the two auto-map strategies are no-ops changing nothing when no CSV is
loaded — and an absent calculated table makes export refuse to run. -/
theorem C8_mutations_invalidate (st : AppState) (f c : String) (nf : List String)
    (hs : List String) (rs : List (List String)) :
    (on_mapping_selected st f c).calculated_data = none
    ∧ (clear_single_mapping st f).calculated_data = none
    ∧ (clear_mappings st).calculated_data = none
    ∧ (auto_map st = st ∨ (auto_map st).calculated_data = none)
    ∧ (smart_auto_map st = st ∨ (smart_auto_map st).calculated_data = none)
    ∧ (edit_target_fields st nf).calculated_data = none
    ∧ (load_csv st hs rs).calculated_data = none
    ∧ (st.calculated_data = none → save_to_access st = SaveOutcome.notCalculated) := by
  refine ⟨rfl, rfl, rfl, ?_, ?_, rfl, rfl, fun hn => ?_⟩
  · by_cases hH : st.csv_headers = []
    · exact Or.inl (by rw [auto_map, if_pos hH])
    · exact Or.inr (by rw [auto_map, if_neg hH]; rfl)
  · by_cases hH : st.csv_headers = []
    · exact Or.inl (by rw [smart_auto_map, if_pos hH])
    · exact Or.inr (by rw [smart_auto_map, if_neg hH]; rfl)
  · simp [save_to_access, hn]

theorem C8_mutations_invalidate_witness :
    (on_mapping_selected st_c8 "VNK" "col").calculated_data = none
    ∧ save_to_access (on_mapping_selected st_c8 "VNK" "col") = SaveOutcome.notCalculated := by
  have h1 := C8_mutations_invalidate st_c8 "VNK" "col" [] [] []
  have h2 := C8_mutations_invalidate (on_mapping_selected st_c8 "VNK" "col") "X" "" [] [] []
  exact ⟨h1.1, h2.2.2.2.2.2.2.2 h1.1⟩

/-! ## Claim C9 -/

def gebJson : String :=
  "\x7b\"evaluation_result\":\x7b\"overall\":\x7b\"geb\":3\x7d\x7d\x7d"

/-- C9: when the raw value parses and the full fixed path is present, the
business-data extractor returns the JSON value found there as-is — for
`geb: 3` the number 3, not the string "3" — and the conversion to a string
only happens in the export serialization. -/
theorem C9_business_value_as_is :
    (∀ t ∈ businessDataFields, ∀ (s : String) (j v : JValue) (k1 k2 k3 : String),
        bdKeys t = some (k1, k2, k3) → json_loads s = some j →
        jPath j [k1, k2, k3] = some v →
        extractCell t "business_data" s = v)
    ∧ extractCell "GEB" "business_data" gebJson = JValue.num 3
    ∧ JValue.num 3 ≠ JValue.str "3"
    ∧ save_csv_lines [("GEB", [JValue.num 3])] = [["GEB"], ["3"]] := by
  refine ⟨?_, rfl, by simp, rfl⟩
  intro t ht s j v k1 k2 k3 hk hj hp
  rw [extractCell_business ht]
  exact extract_bd_of_path_some hk hj hp

theorem C9_business_value_as_is_witness :
    extractCell "GEB" "business_data" gebJson = JValue.num 3 :=
  C9_business_value_as_is.1 "GEB" (by decide) gebJson
    (JValue.obj [("evaluation_result",
        JValue.obj [("overall", JValue.obj [("geb", JValue.num 3)])])])
    (JValue.num 3) "evaluation_result" "overall" "geb" rfl rfl rfl

/-! ## Claim C10 -/

def st_c10 : AppState :=
  { target_fields := ["ID"], csv_headers := ["a"], csv_data := [["x"]],
    mappings := [("ID", "a")], calculated_data := some [("OLD", [.str "old"])] }

/-- C10: once the preconditions pass, the final calculated table depends only
on the inputs of the run — the fresh result on success, `none` when an
exception interrupts the run — so the previously stored table is never
restored on failure. -/
theorem C10_failure_discards_table (st : AppState) (cf : Nat → Bool)
    (failAt : Option Nat) (h1 : st.mappings ≠ []) (h2 : st.csv_data ≠ []) :
    ((calculate_data st cf failAt).2.calculated_data =
      (match failAt with
       | some _ => none
       | none => some (calcTable st.csv_headers st.csv_data (activeMappings st.mappings))))
    ∧ (∀ k, failAt = some k → (calculate_data st cf failAt).1 = CalcOutcome.error) := by
  unfold calculate_data
  rw [if_neg h1, if_neg h2]
  cases failAt <;> simp

theorem C10_failure_discards_table_witness :
    (calculate_data st_c10 (fun _ => false) (some 0)).2.calculated_data = none
    ∧ (calculate_data st_c10 (fun _ => false) (some 0)).1 = CalcOutcome.error := by
  have h := C10_failure_discards_table st_c10 (fun _ => false) (some 0) (by decide) (by decide)
  exact ⟨h.1, h.2 0 rfl⟩

end CSVFieldMapper

